import Mathlib

/-!
Verification of the media-sorting script `Photo_Sorting_Script.py`.

The script is shallow-embedded below.  Pure string/date manipulations are
translated function by function; filesystem state (the set of existing paths,
the CSV audit log) is passed explicitly; the effectful collaborators
(PIL metadata reading, SHA-256 hashing, `shutil.move`, the external `exiftool`
process) are modelled by oracle fields on the per-file input record, since
their outputs are data the script merely consumes.

Conventions of the model:
* Python `str` is Lean `String` (a list of `Char`); `.lower()`, `.endswith`,
  `in`, `.strip` are modelled on the character list.  `str.isprintable` is
  modelled on the ASCII plane (printable iff 32 ≤ code ≤ 126); Unicode
  category based printability of non-ASCII characters is outside the model
  (no claim depends on it).
* `pathlib` path joining uses the platform separator; the model joins with a
  single `"\\"` (the script's configured paths are Windows paths).  The
  separator choice is irrelevant to every claim.
* `os.path.splitext` / `Path.stem` / `Path.suffix` split a file name at its
  last dot (no split when the dot is leading or absent).
* `datetime` values carry year/month/day; the time-of-day part is unused by
  every code path the claims touch (directory layout, date validity).
* The filesystem is a `List String` of existing paths in the output tree;
  `Path.exists` is list membership.  The configured `SOURCE_DIR` and
  `OUTPUT_DIR` are disjoint trees, so removing a moved file's source path
  never affects a target-existence check and is not tracked.
-/

/-- A Python `datetime` restricted to its calendar-date part. -/
structure PyDate where
  year : Nat
  month : Nat
  day : Nat
deriving DecidableEq, Repr

/- ============================================================
   CONFIG  (source lines 18-26)
   ============================================================ -/

def SOURCE_DIR : String := "D:\\Sorting_script\\output_v3\\to_sort"
def OUTPUT_DIR : String := "D:\\Sorting_script\\output_v3\\sorted"

def IMAGE_EXT : List String := [".jpg", ".jpeg", ".png", ".tiff", ".heic", ".bmp"]
def VIDEO_EXT : List String := [".mp4", ".mov", ".avi", ".mkv", ".3gp", ".mpg"]

/- ============================================================
   String helpers modelling Python primitives
   ============================================================ -/

/-- Path joining (`Path(a) / b`); the model fixes the Windows separator. -/
def joinPath (a b : String) : String := a ++ "\\" ++ b

/-- Python `str.lower()` on the ASCII plane. -/
def pyCharLower (c : Char) : Char :=
  if 65 ≤ c.toNat ∧ c.toNat ≤ 90 then Char.ofNat (c.toNat + 32) else c

def pyLower (s : String) : String := ⟨s.data.map pyCharLower⟩

/-- Python `b.endswith a` is "a is a suffix of b". -/
def pyEndsWith (s pat : String) : Bool := pat.data.isSuffixOf s.data

/-- `startsList pat l` : does `l` start with `pat`? (helper for substring search) -/
def startsList : List Char → List Char → Bool
  | [], _ => true
  | _ :: _, [] => false
  | a :: as, b :: bs => a == b && startsList as bs

/-- `subSearch pat l` : does `pat` occur contiguously inside `l`? -/
def subSearch (pat : List Char) : List Char → Bool
  | [] => pat.isEmpty
  | c :: cs => startsList pat (c :: cs) || subSearch pat cs

/-- Python `pat in s` for strings. -/
def containsSub (s pat : String) : Bool := subSearch pat.data s.data

/-- Truthiness of a Python string: non-empty. -/
def pyStrTruthy (s : String) : Bool := !(s == "")

/-- `os.path.splitext` / `Path.stem`+`Path.suffix`: split at the last dot
(no extension when the dot is absent or leading).  Always
`(stem, ext)` with `stem ++ ext = name`. -/
def pySplitExt (name : String) : String × String :=
  let n := name.data
  match n.reverse.findIdx? (· == '.') with
  | none => (name, "")
  | some j =>
    let i := n.length - 1 - j
    if i = 0 then (name, "") else (⟨n.take i⟩, ⟨n.drop i⟩)

/-- Python `str.strip(chars)`: drop characters of `cs` from both ends. -/
def stripSet (cs : List Char) (l : List Char) : List Char :=
  ((l.dropWhile (cs.contains ·)).reverse.dropWhile (cs.contains ·)).reverse

/-- `re.sub(p+, r, s)` for a character class `p`: replace every maximal run of
characters satisfying `p` by the single character `r`.  The `inRun` flag
records whether the previous character was part of a run. -/
def collapseAux (p : Char → Bool) (r : Char) : Bool → List Char → List Char
  | _, [] => []
  | inRun, c :: cs =>
    if p c then
      if inRun then collapseAux p r true cs
      else r :: collapseAux p r true cs
    else c :: collapseAux p r false cs

def collapseRuns (p : Char → Bool) (r : Char) (l : List Char) : List Char :=
  collapseAux p r false l

/-- Python `str(n)` for a natural number: decimal digits.  Defined with
explicit fuel (`n+1` steps always suffice) so that it evaluates by kernel
reduction. -/
def decDigit (n : Nat) : Char :=
  if n = 0 then '0' else if n = 1 then '1' else if n = 2 then '2'
  else if n = 3 then '3' else if n = 4 then '4' else if n = 5 then '5'
  else if n = 6 then '6' else if n = 7 then '7' else if n = 8 then '8' else '9'

def decDigits : Nat → Nat → List Char
  | 0, _ => []
  | fuel + 1, n => if n < 10 then [decDigit n] else decDigits fuel (n / 10) ++ [decDigit (n % 10)]

def natToDec (n : Nat) : String := ⟨decDigits (n + 1) n⟩

/-- Python `f"{n:0wd}"`: decimal rendering left-padded with zeros to width `w`. -/
def padZ (w n : Nat) : String :=
  ⟨List.replicate (w - (natToDec n).data.length) '0' ++ (natToDec n).data⟩

/- ============================================================
   datetime constructor (validity check of `datetime(y, m, d)`)
   ============================================================ -/

def isLeapYear (y : Nat) : Bool := (y % 4 == 0 && y % 100 != 0) || y % 400 == 0

def daysInMonth (y m : Nat) : Nat :=
  if m = 2 then (if isLeapYear y then 29 else 28)
  else if m = 4 ∨ m = 6 ∨ m = 9 ∨ m = 11 then 30
  else 31

/-- `datetime(y, m, d)`: `some` date when the arguments form a valid calendar
date (Python raises `ValueError` otherwise, which the callers catch). -/
def py_datetime (y m d : Nat) : Option PyDate :=
  if 1 ≤ y ∧ y ≤ 9999 ∧ 1 ≤ m ∧ m ≤ 12 ∧ 1 ≤ d ∧ d ≤ daysInMonth y m then
    some ⟨y, m, d⟩
  else none

/- ============================================================
   FILENAME DATE EXTRACTION  (source lines 124-146)

   The five regexes of FILENAME_DATE_PATTERNS are hand-compiled to
   fixed-position matchers over the character list.  Each matcher attempts a
   match anchored at the head of its argument; `firstMatch` provides
   `re.search`'s leftmost-scan.  The patterns are deterministic (fixed-width
   groups; the single optional piece `[-_]?` of pattern 5 never needs
   backtracking because a digit cannot equal `-` or `_`).
   ============================================================ -/

def isDig (c : Char) : Bool := '0' ≤ c && c ≤ '9'

def digVal (c : Char) : Nat := c.toNat - 48

def isSep (c : Char) : Bool := c == '-' || c == '_' || c == '.'

/-- `(?P<y>20\d{2})[-_.](?P<m>\d{2})[-_.](?P<d>\d{2})` -/
def mYMDsep : List Char → Option (Nat × Nat × Nat)
  | '2' :: '0' :: a :: b :: s1 :: m1 :: m2 :: s2 :: d1 :: d2 :: _ =>
    if isDig a && isDig b && isSep s1 && isDig m1 && isDig m2 && isSep s2 &&
        isDig d1 && isDig d2 then
      some (2000 + 10 * digVal a + digVal b, 10 * digVal m1 + digVal m2,
            10 * digVal d1 + digVal d2)
    else none
  | _ => none

/-- `(?P<d>\d{2})[-_.](?P<m>\d{2})[-_.](?P<y>20\d{2})` -/
def mDMYsep : List Char → Option (Nat × Nat × Nat)
  | d1 :: d2 :: s1 :: m1 :: m2 :: s2 :: '2' :: '0' :: a :: b :: _ =>
    if isDig d1 && isDig d2 && isSep s1 && isDig m1 && isDig m2 && isSep s2 &&
        isDig a && isDig b then
      some (2000 + 10 * digVal a + digVal b, 10 * digVal m1 + digVal m2,
            10 * digVal d1 + digVal d2)
    else none
  | _ => none

/-- `(?P<y>20\d{2})(?P<m>\d{2})(?P<d>\d{2})` -/
def mYMD8 : List Char → Option (Nat × Nat × Nat)
  | '2' :: '0' :: a :: b :: m1 :: m2 :: d1 :: d2 :: _ =>
    if isDig a && isDig b && isDig m1 && isDig m2 && isDig d1 && isDig d2 then
      some (2000 + 10 * digVal a + digVal b, 10 * digVal m1 + digVal m2,
            10 * digVal d1 + digVal d2)
    else none
  | _ => none

/-- `(?P<d>\d{2})(?P<m>\d{2})(?P<y>20\d{2})` -/
def mDMY8 : List Char → Option (Nat × Nat × Nat)
  | d1 :: d2 :: m1 :: m2 :: '2' :: '0' :: a :: b :: _ =>
    if isDig d1 && isDig d2 && isDig m1 && isDig m2 && isDig a && isDig b then
      some (2000 + 10 * digVal a + digVal b, 10 * digVal m1 + digVal m2,
            10 * digVal d1 + digVal d2)
    else none
  | _ => none

/-- `(IMG|VID)[-_]?(?P<y>20\d{2})(?P<m>\d{2})(?P<d>\d{2})` -/
def mIMGVID : List Char → Option (Nat × Nat × Nat)
  | c1 :: c2 :: c3 :: rest =>
    if (c1 == 'I' && c2 == 'M' && c3 == 'G') || (c1 == 'V' && c2 == 'I' && c3 == 'D') then
      match rest with
      | s :: rest2 => if s == '-' || s == '_' then mYMD8 rest2 else mYMD8 rest
      | [] => none
    else none
  | _ => none

/-- `re.search`: try the anchored matcher at every position, leftmost first. -/
def firstMatch (m : List Char → Option (Nat × Nat × Nat)) :
    List Char → Option (Nat × Nat × Nat)
  | [] => m []
  | c :: cs =>
    match m (c :: cs) with
    | some r => some r
    | none => firstMatch m cs

def FILENAME_DATE_PATTERNS : List (List Char → Option (Nat × Nat × Nat)) :=
  [mYMDsep, mDMYsep, mYMD8, mDMY8, mIMGVID]

/-- The pattern loop of `parse_date_from_filename`: first pattern whose match
parses to a valid calendar date wins; an invalid date (`except: pass`) moves
on to the next pattern. -/
def tryPatterns : List (List Char → Option (Nat × Nat × Nat)) → List Char → Option PyDate
  | [], _ => none
  | p :: ps, l =>
    match firstMatch p l with
    | some (y, m, d) =>
      match py_datetime y m d with
      | some dt => some dt
      | none => tryPatterns ps l
    | none => tryPatterns ps l

def parse_date_from_filename (filename : String) : Option PyDate :=
  tryPatterns FILENAME_DATE_PATTERNS (pySplitExt filename).1.data

/- ============================================================
   DEVICE CLEANING  (source lines 152-164)
   ============================================================ -/

def illegalFsChar (c : Char) : Bool :=
  c == '<' || c == '>' || c == ':' || c == '"' || c == '/' ||
  c == '\\' || c == '|' || c == '?' || c == '*'

/-- Python `\s` on the ASCII plane (the characters reaching the substitution
have already been filtered to codes 32-126, so only `' '` can occur). -/
def pyIsSpace (c : Char) : Bool :=
  c == ' ' || c == '\t' || c == '\n' || c == '\r' ||
  c == Char.ofNat 11 || c == Char.ofNat 12

def clean_device_string (s : String) : String :=
  if s = "" then "default"
  else
    let s1 := s.data.filter (fun c => 32 ≤ c.toNat && c.toNat ≤ 126)
    let s2 := s1.filter (fun c => !illegalFsChar c)
    let s3 := collapseRuns pyIsSpace '_' s2
    let s4 : String := ⟨stripSet ['_'] (collapseRuns (· == '_') '_' s3)⟩
    if pyLower s4 ∈ ["", "default", "default_", "_default", "default_default"] then
      "default"
    else s4

/- ============================================================
   EXIF READING  (source lines 170-193)

   PIL's tag reading is effectful; its result is carried on the input record.
   `exif = none` models `Image.open`/`getexif` raising (the bare `except`).
   The capture-date tag is carried post-`strptime`: `dateTag = none` models
   both an absent tag and a string `strptime` rejects.
   ============================================================ -/

structure ExifTags where
  /-- tag 36867 (`DateTimeOriginal`) or, failing that, 306 (`DateTime`),
  already parsed with `strptime("%Y:%m:%d %H:%M:%S")`; `none` when absent or
  unparseable. -/
  dateTag : Option PyDate
  /-- tag 271 (`Make`), `""` when absent (the `exif.get(271, "")` default). -/
  make : String
  /-- tag 272 (`Model`), `""` when absent. -/
  model : String
  /-- tag 270 (`ImageDescription`). -/
  desc : Option String
  /-- tag 514 (`DocumentName`). -/
  doc : Option String
  /-- tag 0x5012 (`XPFilename`), already decoded from UTF-16LE and stripped of
  trailing NULs; a decoding error behaves like an absent tag (both paths fall
  through to `return path.name`). -/
  xpfn : Option String
deriving DecidableEq, Repr

/-- One file reaching the sorting loop, together with the oracle outcomes of
its effectful collaborators. -/
structure MediaFile where
  name : String
  root : String
  exif : Option ExifTags
  /-- `path.stat().st_mtime`, as a date. -/
  mtime : PyDate
  /-- `get_file_hash path`: the SHA-256 hex digest of the file's bytes. -/
  filehash : String
  /-- whether `shutil.move` raises for this file. -/
  moveFails : Bool
  /-- whether the `exiftool` invocation exits with code 0. -/
  repairSucceeds : Bool
deriving DecidableEq, Repr

def get_exif_data (f : MediaFile) : Option PyDate × String :=
  match f.exif with
  | none => (none, "default")
  | some e =>
    let mk := clean_device_string e.make
    let md := clean_device_string e.model
    let device :=
      if mk = "default" ∨ md = "default" then "default"
      else (⟨stripSet ['_'] (mk ++ "_" ++ md).data⟩ : String)
    (e.dateTag, clean_device_string device)

/- ============================================================
   BEST DATE  (source lines 199-213)
   ============================================================ -/

def get_best_date (f : MediaFile) : PyDate × String :=
  let ext := pyLower (pySplitExt f.name).2
  let pair := if ext ∈ IMAGE_EXT then get_exif_data f else (none, "default")
  match pair.1 with
  | some d => (d, pair.2)
  | none =>
    match parse_date_from_filename f.name with
    | some d => (d, pair.2)
    | none => (f.mtime, pair.2)

/- ============================================================
   METADATA FILENAME  (source lines 219-263)
   ============================================================ -/

/-- `str.isprintable`, modelled on the ASCII plane. -/
def pyIsPrintable (c : Char) : Bool := 32 ≤ c.toNat && c.toNat ≤ 126

def clean_filename_text (text : String) : String :=
  if text = "" then ""
  else
    let t1 := text.data.filter pyIsPrintable
    let t2 := t1.filter (fun c => !illegalFsChar c)
    ⟨stripSet [' ', '.'] t2⟩

/-- The `ImageDescription`/`DocumentName` branches: a truthy tag whose cleaned
text is non-empty yields the cleaned text with the extension appended
unconditionally. -/
def candidateName (val : Option String) (sfx : String) : Option String :=
  match val with
  | none => none
  | some v =>
    if v = "" then none
    else
      let n := clean_filename_text v
      if n = "" then none else some (n ++ sfx)

/-- The `XPFilename` branch: here (and only here) the extension is appended
after a case-insensitive `endswith` check. -/
def xpfnName (val : Option String) (sfx : String) : Option String :=
  match val with
  | none => none
  | some v =>
    if v = "" then none
    else
      let n := clean_filename_text v
      if n = "" then none
      else some (if pyEndsWith (pyLower n) (pyLower sfx) then n else n ++ sfx)

def get_metadata_filename (f : MediaFile) : String :=
  match f.exif with
  | none => f.name
  | some e =>
    let sfx := (pySplitExt f.name).2
    match candidateName e.desc sfx with
    | some n => n
    | none =>
      match candidateName e.doc sfx with
      | some n => n
      | none =>
        match xpfnName e.xpfn sfx with
        | some n => n
        | none => f.name

/- ============================================================
   CATEGORY DETECTION  (source lines 280-292)
   ============================================================ -/

def SPECIAL_KEYWORDS : List String :=
  ["whatsapp", "screenshot", "scan", "instagram", "facebook", "messenger",
   "snapchat", "tiktok", "wechat", "telegram"]

def detect_special_category (name root : String) : String :=
  match SPECIAL_KEYWORDS.find?
      (fun w => containsSub (pyLower name) w || containsSub (pyLower root) w) with
  | some w => w
  | none => ""

/- ============================================================
   FOLDER CREATION  (source lines 298-309)
   (the `mkdir` side effect creates directories, which never collide with
   file paths; only the returned path string matters to the claims)
   ============================================================ -/

def make_date_path (base_dir device : String) (date : PyDate) (category : String) : String :=
  let year := padZ 4 date.year
  let month := padZ 2 date.month
  let day := padZ 2 date.day
  if pyStrTruthy category then
    joinPath (joinPath (joinPath (joinPath (joinPath base_dir device) category) year) month) day
  else
    joinPath (joinPath (joinPath (joinPath base_dir device) year) month) day

/- ============================================================
   TIMESTAMP REPAIR  (source lines 33-79)
   ============================================================ -/

/-- `apply_correct_dates`, returning the boolean result together with the
number of `exiftool` invocations it performed (0 or 1).  When
`EXIFTOOL_EXISTS` is false it returns `False` without invoking anything;
otherwise the subprocess runs once and `invokeOk` is the oracle for
`returncode == 0` (an exception is subsumed by `invokeOk = false`). -/
def apply_correct_dates (exiftoolExists : Bool) (invokeOk : Bool) : Bool × Nat :=
  if exiftoolExists then (invokeOk, 1) else (false, 0)

/- ============================================================
   CSV LOGFILE  (source lines 86-118)
   ============================================================ -/

structure Row where
  src : String
  dest : String
  device : String
  category : String
  date : PyDate
  filehash : String
  duplicate : Bool
  timestampFixed : String
deriving DecidableEq, Repr

/-- `log_move` converts the truthiness of its `timestamp_fixed` argument to
`"YES"`/`"NO"`.  (In the source, `sort_media` passes the literal *string*
`'false'` here, which is truthy.) -/
def log_move (src dest device category : String) (date : PyDate)
    (filehash : String) (duplicate : Bool) (timestampFixedTruthy : Bool) : Row :=
  ⟨src, dest, device, category, date, filehash, duplicate,
   if timestampFixedTruthy then "YES" else "NO"⟩

def LOG_HEADER : List String :=
  ["Source", "Destination", "Device", "Category", "Date", "Hash", "Duplicate",
   "TimestampFixed"]

/-- The audit-log file: `none` when absent; otherwise its rows (each a list of
cell strings). -/
def logPathIsFile (fs : Option (List (List String))) : Bool := fs.isSome

/-- Opening in `"a"` mode creates the file (empty) if absent, else leaves its
content unchanged. -/
def openAppend (fs : Option (List (List String))) : List (List String) :=
  fs.getD []

/-- `init_log` (source lines 86-104).  The `file_exists` variable is computed
but never consulted; the existence test guarding the header write runs only
after the append-mode `open` has already created the file. -/
def init_log (fs : Option (List (List String))) : Option (List (List String)) :=
  let _file_exists := logPathIsFile fs
  let content := openAppend fs
  if logPathIsFile (some content) then some content
  else some [LOG_HEADER]

/- ============================================================
   COLLISION RESOLUTION  (the inline block of sort_media, lines 441-451)
   ============================================================ -/

/-- The numbered candidate `f"{stem}_DUP_{count}{suffix}"` inside the target
directory. -/
def dupNum (dir stem sfx : String) (count : Nat) : String :=
  joinPath dir (stem ++ "_DUP_" ++ natToDec count ++ sfx)

/-- The `while target_file.exists()` loop: starting at `count`, return the
first numbered candidate not on disk.  The source loop is unbounded; the
model runs it with fuel `disk.length + 1`, which always suffices
(`findFreeAux_spec` below), so the two agree. -/
def findFreeAux (disk : List String) (mk : Nat → String) : Nat → Nat → String
  | 0, count => mk count
  | fuel + 1, count => if mk count ∈ disk then findFreeAux disk mk fuel (count + 1) else mk count

/-- The collision-resolution block of `sort_media`: `desired = dir \ (stem ++ sfx)`
is kept when free; otherwise a non-duplicate first becomes `stem_DUP.sfx`
(kept if free), and the numbered search starts at 1; a duplicate keeps the
(existing) desired path as loop seed, so the loop always rewrites it to a
numbered candidate. -/
def resolve_collision (disk : List String) (dir stem sfx : String) (duplicate : Bool) : String :=
  let desired := joinPath dir (stem ++ sfx)
  if desired ∈ disk then
    let start := if duplicate then desired else joinPath dir (stem ++ "_DUP" ++ sfx)
    if start ∈ disk then findFreeAux disk (dupNum dir stem sfx) (disk.length + 1) 1
    else start
  else desired

/- ============================================================
   MAIN SORTING LOGIC  (source lines 418-472)
   ============================================================ -/

structure SortState where
  /-- the existing paths of the output tree (`Path.exists` oracle). -/
  disk : List String
  /-- the keys of `seen_hashes`, in insertion order. -/
  seen : List String
  /-- the audit rows appended so far. -/
  log : List Row
  /-- how many times `exiftool` has been invoked. -/
  fixCalls : Nat
deriving DecidableEq, Repr

def initState (disk : List String) : SortState := ⟨disk, [], [], 0⟩

/-- One iteration of the `sort_media` loop body.  A non-media extension is
skipped (`continue`).  `shutil.move` raising is modelled by
`f.moveFails`; the exception is uncaught in the source, so the iteration
aborts with the offending (source, target) pair and no state change (the
move failed, nothing was logged, `seen_hashes` untouched). -/
def processFile (exiftoolExists : Bool) (st : SortState) (f : MediaFile) :
    Except (String × String) SortState :=
  let ext := pyLower (pySplitExt f.name).2
  if ext ∈ IMAGE_EXT ++ VIDEO_EXT then
    let db := get_best_date f
    let date := db.1
    let device := db.2
    let category := detect_special_category f.name f.root
    let new_name := get_metadata_filename f
    let base_name := if pyEndsWith (pyLower new_name) ext then new_name else new_name ++ ext
    let filehash := f.filehash
    let duplicate := filehash ∈ st.seen
    let target_dir := make_date_path OUTPUT_DIR device date category
    let stem := (pySplitExt base_name).1
    let sfx := (pySplitExt base_name).2
    let target_file := resolve_collision st.disk target_dir stem sfx duplicate
    if f.moveFails then Except.error (joinPath f.root f.name, target_file)
    else
      let tf := apply_correct_dates exiftoolExists f.repairSucceeds
      let row := log_move (joinPath f.root f.name) target_file device category date
        filehash duplicate (pyStrTruthy "false")
      Except.ok
        { disk := target_file :: st.disk
          seen := st.seen ++ [filehash]
          log := st.log ++ [row]
          fixCalls := st.fixCalls + tf.2 }
  else Except.ok st

/-- `sort_media` over the walked file list.  An uncaught move exception stops
the loop; the second component reports it (the interpreter's traceback). -/
def runSortMedia (exiftoolExists : Bool) :
    List MediaFile → SortState → SortState × Option (String × String)
  | [], st => (st, none)
  | f :: fs, st =>
    match processFile exiftoolExists st f with
    | Except.error e => (st, some e)
    | Except.ok st' => runSortMedia exiftoolExists fs st'

/- ============================================================
   Helper lemmas: decimal rendering is injective
   ============================================================ -/

/-- Numeric value of a digit string (inverse of `decDigits`). -/
def decVal (l : List Char) : Nat := l.foldl (fun a c => 10 * a + digVal c) 0

lemma decVal_append_singleton (l : List Char) (c : Char) :
    decVal (l ++ [c]) = 10 * decVal l + digVal c := by
  simp [decVal, List.foldl_append]

lemma digVal_decDigit (n : Nat) (h : n < 10) : digVal (decDigit n) = n := by
  interval_cases n <;> decide

lemma decVal_decDigits (fuel n : Nat) (h : n < 10 ^ fuel) :
    decVal (decDigits fuel n) = n := by
  induction fuel generalizing n with
  | zero =>
    have : n = 0 := by simpa using h
    simp [this, decDigits, decVal]
  | succ fuel ih =>
    by_cases hn : n < 10
    · simp [decDigits, hn, decVal, digVal_decDigit n hn]
    · have hdiv : n / 10 < 10 ^ fuel := by
        rw [Nat.div_lt_iff_lt_mul (by norm_num)]
        calc n < 10 ^ (fuel + 1) := h
        _ = 10 ^ fuel * 10 := by ring
      simp only [decDigits, hn, if_false]
      rw [decVal_append_singleton, ih _ hdiv, digVal_decDigit _ (Nat.mod_lt _ (by norm_num))]
      omega

lemma natToDec_inj (m n : Nat) (h : natToDec m = natToDec n) : m = n := by
  have hd : decDigits (m + 1) m = decDigits (n + 1) n := congrArg String.data h
  have hm : m < 10 ^ (m + 1) :=
    lt_of_lt_of_le (Nat.lt_pow_self (by norm_num) m)
      (Nat.pow_le_pow_right (by norm_num) (Nat.le_succ m))
  have hn : n < 10 ^ (n + 1) :=
    lt_of_lt_of_le (Nat.lt_pow_self (by norm_num) n)
      (Nat.pow_le_pow_right (by norm_num) (Nat.le_succ n))
  have := decVal_decDigits (m + 1) m hm
  rw [hd, decVal_decDigits (n + 1) n hn] at this
  omega

lemma dupNum_inj (dir stem sfx : String) (i j : Nat)
    (h : dupNum dir stem sfx i = dupNum dir stem sfx j) : i = j := by
  apply natToDec_inj
  have hd := congrArg String.data h
  simp only [dupNum, joinPath, String.data_append, List.append_assoc] at hd
  have hd2 := List.append_cancel_left hd
  have hd3 := List.append_cancel_left hd2
  have hd4 := List.append_cancel_left hd3
  have hd5 := List.append_cancel_left hd4
  have hd6 := List.append_cancel_right hd5
  exact String.ext hd6

/- ============================================================
   Helper lemmas: the numbered-suffix search
   ============================================================ -/

lemma findFreeAux_least (disk : List String) (mk : Nat → String) :
    ∀ (fuel count : Nat), (∃ n, count ≤ n ∧ n < count + fuel ∧ mk n ∉ disk) →
    ∃ k, count ≤ k ∧ findFreeAux disk mk fuel count = mk k ∧ mk k ∉ disk ∧
      ∀ j, count ≤ j → j < k → mk j ∈ disk := by
  intro fuel
  induction fuel with
  | zero =>
    intro count ⟨n, h1, h2, _⟩
    omega
  | succ fuel ih =>
    intro count ⟨n, h1, h2, h3⟩
    by_cases hc : mk count ∈ disk
    · have hne : n ≠ count := fun he => h3 (he ▸ hc)
      obtain ⟨k, hk1, hk2, hk3, hk4⟩ := ih (count + 1) ⟨n, by omega, by omega, h3⟩
      refine ⟨k, by omega, ?_, hk3, ?_⟩
      · simpa [findFreeAux, hc] using hk2
      · intro j hj1 hj2
        rcases Nat.eq_or_lt_of_le hj1 with he | hlt
        · exact he ▸ hc
        · exact hk4 j hlt hj2
    · exact ⟨count, le_refl _, by simp [findFreeAux, hc], hc, fun j h1 h2 => by omega⟩

lemma exists_free (disk : List String) (mk : Nat → String)
    (hinj : ∀ i j, mk i = mk j → i = j) :
    ∃ n, 1 ≤ n ∧ n < 1 + (disk.length + 1) ∧ mk n ∉ disk := by
  by_contra hall
  push_neg at hall
  have hsub : (List.range (disk.length + 1)).map (fun i => mk (i + 1)) ⊆ disk := by
    intro x hx
    simp only [List.mem_map, List.mem_range] at hx
    obtain ⟨i, hi, rfl⟩ := hx
    exact hall (i + 1) (by omega) (by omega)
  have hnd : ((List.range (disk.length + 1)).map (fun i => mk (i + 1))).Nodup := by
    refine (List.nodup_range _).map ?_
    intro a b hab
    have := hinj (a + 1) (b + 1) hab
    omega
  have := (List.subperm_of_subset hnd hsub).length_le
  simp at this

lemma resolve_collision_not_mem (disk : List String) (dir stem sfx : String)
    (dup : Bool) : resolve_collision disk dir stem sfx dup ∉ disk := by
  unfold resolve_collision
  by_cases h1 : joinPath dir (stem ++ sfx) ∈ disk
  · simp only [h1, if_true]
    by_cases h2 : (if dup then joinPath dir (stem ++ sfx)
        else joinPath dir (stem ++ "_DUP" ++ sfx)) ∈ disk
    · simp only [h2, if_true]
      obtain ⟨k, _, hk2, hk3, _⟩ :=
        findFreeAux_least disk (dupNum dir stem sfx) (disk.length + 1) 1
          (exists_free disk (dupNum dir stem sfx) (dupNum_inj dir stem sfx))
      rw [hk2]; exact hk3
    · simp [h2]
  · simp [h1]

/- ============================================================
   Run-level lemmas about sort_media
   ============================================================ -/

lemma processFile_ok_cases (ex : Bool) (st : SortState) (f : MediaFile) (st' : SortState)
    (h : processFile ex st f = Except.ok st') :
    st' = st ∨ ∃ t row, t ∉ st.disk ∧ Row.dest row = t ∧
      st'.disk = t :: st.disk ∧ st'.log = st.log ++ [row] := by
  simp only [processFile] at h
  split at h
  · split at h
    · simp at h
    · right
      injection h with h
      subst h
      exact ⟨_, _, resolve_collision_not_mem _ _ _ _ _, rfl, rfl, rfl⟩
  · left
    injection h with h
    exact h.symm

lemma processFile_fixCalls (st : SortState) (f : MediaFile) (st' : SortState)
    (h : processFile false st f = Except.ok st') : st'.fixCalls = st.fixCalls := by
  simp only [processFile] at h
  split at h
  · split at h
    · simp at h
    · injection h with h
      subst h
      simp [apply_correct_dates]
  · injection h with h
    subst h
    rfl

lemma runSortMedia_inv (ex : Bool) :
    ∀ (files : List MediaFile) (st : SortState),
    (st.log.map Row.dest).Nodup → (∀ p ∈ st.log.map Row.dest, p ∈ st.disk) →
    ((runSortMedia ex files st).1.log.map Row.dest).Nodup ∧
      ∀ p ∈ (runSortMedia ex files st).1.log.map Row.dest,
        p ∈ (runSortMedia ex files st).1.disk := by
  intro files
  induction files with
  | nil => intro st h1 h2; exact ⟨h1, h2⟩
  | cons f fs ih =>
    intro st h1 h2
    simp only [runSortMedia]
    cases hp : processFile ex st f with
    | error e => exact ⟨h1, h2⟩
    | ok st' =>
      rcases processFile_ok_cases ex st f st' hp with rfl | ⟨t, row, ht, hrd, hdisk, hlog⟩
      · exact ih st' h1 h2
      · apply ih st'
        · rw [hlog]
          simp only [List.map_append, List.map_cons, List.map_nil, hrd]
          rw [List.nodup_append]
          refine ⟨h1, List.nodup_singleton t, ?_⟩
          intro p hp1 hp2
          simp only [List.mem_singleton] at hp2
          subst hp2
          exact ht (h2 p hp1)
        · intro p hp1
          rw [hlog] at hp1
          simp only [List.map_append, List.map_cons, List.map_nil, hrd,
            List.mem_append, List.mem_singleton] at hp1
          rw [hdisk]
          rcases hp1 with hp1 | rfl
          · exact List.mem_cons_of_mem _ (h2 p hp1)
          · exact List.mem_cons_self _ _

/- ============================================================
   Concrete inputs used by the claim theorems
   ============================================================ -/

/-- A plain media file with no readable metadata: name `photo.jpg`, hash `h`. -/
def cPhoto (h : String) : MediaFile :=
  ⟨"photo.jpg", SOURCE_DIR, none, ⟨2020, 1, 2⟩, h, false, false⟩

/-- Same file, but `shutil.move` raises for it. -/
def cPhotoFail : MediaFile :=
  ⟨"photo.jpg", SOURCE_DIR, none, ⟨2020, 1, 2⟩, "h0", true, false⟩

/-- A file whose `ImageDescription` tag already ends with the extension. -/
def cDesc : MediaFile :=
  ⟨"x.jpg", SOURCE_DIR, some ⟨none, "", "", some "a.jpg", none, none⟩,
   ⟨2020, 1, 2⟩, "h9", false, false⟩

/-- A file whose `ImageDescription` tag is a plain title. -/
def cDesc2 : MediaFile :=
  ⟨"x.jpg", SOURCE_DIR, some ⟨none, "", "", some "Holiday", none, none⟩,
   ⟨2020, 1, 2⟩, "h8", false, false⟩

/-- A file whose only title tag is a `DocumentName` already ending with the
extension. -/
def cDoc : MediaFile :=
  ⟨"x.jpg", SOURCE_DIR, some ⟨none, "", "", none, some "b.jpg", none⟩,
   ⟨2020, 1, 2⟩, "h6", false, false⟩

/-- A file whose only title tag is a Windows `XPFilename` ending with the
extension (different case). -/
def cXpfn : MediaFile :=
  ⟨"x.jpg", SOURCE_DIR, some ⟨none, "", "", none, none, some "Pic.JPG"⟩,
   ⟨2020, 1, 2⟩, "h7", false, false⟩

/-- A file with a 1999 date in its name and no readable metadata. -/
def c1999 : MediaFile :=
  ⟨"1999-05-06.jpg", SOURCE_DIR, none, ⟨2010, 7, 8⟩, "h5", false, false⟩

/- ============================================================
   C1 — move failure behaviour
   ============================================================ -/

/-- C1 counterexample: with two media files where the first one's move raises,
the run produces no audit record at all — in particular none for the second
file — and surfaces the exception; the same second file processed alone
yields one audit record.  This falsifies "a move failure on one file does not
abort processing of the remaining files". -/
theorem C1_counterexample :
    (runSortMedia true [cPhotoFail, cPhoto "h2"] (initState [])).1.log = [] ∧
    (runSortMedia true [cPhotoFail, cPhoto "h2"] (initState [])).2.isSome = true ∧
    (runSortMedia true [cPhoto "h2"] (initState [])).1.log.length = 1 := by
  decide

/-- C1 (amended): if moving a media file fails, the `shutil.move` exception
propagates out of `sort_media`: the run aborts with that error, no audit
record is written for the failed file, and the remaining files are not
processed (the run's state is exactly the state before the failing file). -/
theorem C1_move_failure_aborts (ex : Bool) (st : SortState) (f : MediaFile)
    (fs : List MediaFile)
    (hext : pyLower (pySplitExt f.name).2 ∈ IMAGE_EXT ++ VIDEO_EXT)
    (hfail : f.moveFails = true) :
    ∃ e, runSortMedia ex (f :: fs) st = (st, some e) := by
  have hp : ∃ e, processFile ex st f = Except.error e := by
    simp only [processFile]
    rw [if_pos hext, hfail]
    simp
  obtain ⟨e, he⟩ := hp
  refine ⟨e, ?_⟩
  simp only [runSortMedia, he]

/-- C1 witness: the amended statement at a concrete failing file. -/
theorem C1_move_failure_aborts_witness :
    ∃ e, runSortMedia true [cPhotoFail, cPhoto "h2"] (initState []) =
      (initState [], some e) :=
  C1_move_failure_aborts true (initState []) cPhotoFail [cPhoto "h2"]
    (by decide) (by decide)

/- ============================================================
   C2 — exiftool unavailable
   ============================================================ -/

/-- C2: when `exiftool` is unavailable (`EXIFTOOL_EXISTS = false`), no
invocation of the tool is ever attempted (the invocation counter of any run
stays put) — but the audit rows record `TimestampFixed = "YES"`, not `"NO"`:
`sort_media` passes the literal string `'false'` to `log_move`, a truthy
value, so the computed repair result is discarded and every row is logged as
fixed.  Shown on a concrete one-file run. -/
theorem C2_repair_unavailable :
    (∀ (files : List MediaFile) (st : SortState),
        (runSortMedia false files st).1.fixCalls = st.fixCalls) ∧
    (runSortMedia false [cPhoto "h1"] (initState [])).1.fixCalls = 0 ∧
    (runSortMedia false [cPhoto "h1"] (initState [])).1.log.map Row.timestampFixed
      = ["YES"] := by
  refine ⟨?_, by decide, by decide⟩
  intro files
  induction files with
  | nil => intro st; rfl
  | cons f fs ih =>
    intro st
    simp only [runSortMedia]
    cases hp : processFile false st f with
    | error e => rfl
    | ok st' => exact (ih st').trans (processFile_fixCalls st f st' hp)

/- ============================================================
   C3 — collision freedom
   ============================================================ -/

/-- C3: the collision-resolution block never returns a path that exists at
the time it is chosen, and over any run of `sort_media` the final target
paths of the audited moves are pairwise distinct. -/
theorem C3_collision_freedom :
    (∀ (disk : List String) (dir stem sfx : String) (dup : Bool),
        resolve_collision disk dir stem sfx dup ∉ disk) ∧
    (∀ (exiftoolExists : Bool) (files : List MediaFile) (disk0 : List String),
        ((runSortMedia exiftoolExists files (initState disk0)).1.log.map
          Row.dest).Nodup) := by
  constructor
  · exact resolve_collision_not_mem
  · intro ex files disk0
    exact (runSortMedia_inv ex files (initState disk0) (by simp [initState])
      (by simp [initState])).1

/-- C3 witness: the invariant at a concrete call whose desired path exists. -/
theorem C3_collision_freedom_witness :
    resolve_collision [joinPath "d" "a.jpg"] "d" "a" ".jpg" false
      ∉ [joinPath "d" "a.jpg"] :=
  C3_collision_freedom.1 [joinPath "d" "a.jpg"] "d" "a" ".jpg" false

/- ============================================================
   C4 — collision resolution for known duplicates
   ============================================================ -/

/-- C4 counterexample: the desired path `d\photo.jpg` exists and the file is a
known duplicate; `photo_DUP.jpg` is free, yet the resolver returns
`photo_DUP_1.jpg` — it never tried `stem_DUP.ext`.  (The `if not duplicate`
guard skips the `_DUP` assignment, so the while loop rewrites the still
existing desired path straight to the numbered form.) -/
theorem C4_counterexample :
    resolve_collision [joinPath "d" "photo.jpg"] "d" "photo" ".jpg" true
      = joinPath "d" "photo_DUP_1.jpg" ∧
    joinPath "d" "photo_DUP.jpg" ∉ [joinPath "d" "photo.jpg"] := by
  decide

/-- C4 (amended): when the desired target path already exists and the file is
a known duplicate, the Collision Resolver skips `stem_DUP.ext` entirely and
tries `stem_DUP_1.ext`, `stem_DUP_2.ext`, … returning the least-numbered free
path (the bare `_DUP` form is used only for non-duplicate name clashes). -/
theorem C4_duplicate_numbering (disk : List String) (dir stem sfx : String)
    (h : joinPath dir (stem ++ sfx) ∈ disk) :
    ∃ k, 1 ≤ k ∧
      resolve_collision disk dir stem sfx true = dupNum dir stem sfx k ∧
      dupNum dir stem sfx k ∉ disk ∧
      ∀ j, 1 ≤ j → j < k → dupNum dir stem sfx j ∈ disk := by
  obtain ⟨k, hk1, hk2, hk3, hk4⟩ :=
    findFreeAux_least disk (dupNum dir stem sfx) (disk.length + 1) 1
      (exists_free disk (dupNum dir stem sfx) (dupNum_inj dir stem sfx))
  refine ⟨k, hk1, ?_, hk3, hk4⟩
  unfold resolve_collision
  simp only [if_pos h, if_true]
  exact hk2

/-- C4 witness: the amended statement at the concrete one-entry disk. -/
theorem C4_duplicate_numbering_witness :
    ∃ k, 1 ≤ k ∧
      resolve_collision [joinPath "d" "photo.jpg"] "d" "photo" ".jpg" true
        = dupNum "d" "photo" ".jpg" k ∧
      dupNum "d" "photo" ".jpg" k ∉ [joinPath "d" "photo.jpg"] ∧
      ∀ j, 1 ≤ j → j < k → dupNum "d" "photo" ".jpg" j ∈ [joinPath "d" "photo.jpg"] :=
  C4_duplicate_numbering [joinPath "d" "photo.jpg"] "d" "photo" ".jpg" (by decide)

/- ============================================================
   C5 — audit-log initialization
   ============================================================ -/

/-- C5: when the log file is absent, `init_log` creates it *empty* — the
header row is never written, because the `os.path.exists` test guarding the
header write runs only after the append-mode `open` has already created the
file (the `file_exists` variable computed up front is never consulted).  When
the file is present its contents are left untouched (never rewritten or
truncated), so that half of the claim holds. -/
theorem C5_init_log_no_header :
    init_log none = some [] ∧ ([] : List (List String)) ≠ [LOG_HEADER] ∧
    ∀ content, init_log (some content) = some content := by
  refine ⟨rfl, by decide, fun content => rfl⟩

/- ============================================================
   C6 — category of WhatsApp-convention filenames
   ============================================================ -/

/-- C6 counterexample: `IMG-20230101-WA0005.jpg` in a directory containing no
special keyword yields the empty category, not `"whatsapp"` — none of the
keywords (in particular the full word `whatsapp`) occurs in the lowercased
filename. -/
theorem C6_counterexample :
    detect_special_category "IMG-20230101-WA0005.jpg" "D:\\pictures\\2023" = "" := by
  decide

/-- C6 (amended): a file named `IMG-20230101-WA0005.jpg` is assigned the
category `"whatsapp"` exactly when the lowercased path of its containing
directory contains the substring `whatsapp`; the filename itself matches no
keyword, so in a directory containing no special keyword at all the category
is empty. -/
theorem C6_whatsapp_from_dir (root : String) :
    (detect_special_category "IMG-20230101-WA0005.jpg" root = "whatsapp" ↔
      containsSub (pyLower root) "whatsapp" = true) ∧
    (∀ w ∈ SPECIAL_KEYWORDS,
      containsSub (pyLower "IMG-20230101-WA0005.jpg") w = false) ∧
    ((∀ w ∈ SPECIAL_KEYWORDS, containsSub (pyLower root) w = false) →
      detect_special_category "IMG-20230101-WA0005.jpg" root = "") := by
  have hname : ∀ w ∈ SPECIAL_KEYWORDS,
      containsSub (pyLower "IMG-20230101-WA0005.jpg") w = false := by decide
  refine ⟨⟨?_, ?_⟩, hname, ?_⟩
  · intro hd
    unfold detect_special_category at hd
    cases hf : SPECIAL_KEYWORDS.find?
        (fun w => containsSub (pyLower "IMG-20230101-WA0005.jpg") w ||
          containsSub (pyLower root) w) with
    | none => rw [hf] at hd; exact absurd hd (by decide)
    | some w =>
      rw [hf] at hd
      have hw : w = "whatsapp" := hd
      have hp := List.find?_some hf
      rw [hw] at hp
      rcases (Bool.or_eq_true _ _).mp hp with hp | hp
      · exact absurd hp (by simpa using hname "whatsapp" (by decide))
      · exact hp
  · intro h
    unfold detect_special_category SPECIAL_KEYWORDS
    rw [List.find?_cons_of_pos]
    exact (Bool.or_eq_true _ _).mpr (Or.inr h)
  · intro hall
    unfold detect_special_category
    cases hf : SPECIAL_KEYWORDS.find?
        (fun w => containsSub (pyLower "IMG-20230101-WA0005.jpg") w ||
          containsSub (pyLower root) w) with
    | none => rfl
    | some w =>
      exfalso
      have hp := List.find?_some hf
      have hw := List.mem_of_find?_eq_some hf
      rcases (Bool.or_eq_true _ _).mp hp with hp | hp
      · exact absurd hp (by simp [hname w hw])
      · exact absurd hp (by simp [hall w hw])

/-- C6 witness: the amended statement at a WhatsApp export directory and at a
keyword-free directory. -/
theorem C6_whatsapp_from_dir_witness :
    detect_special_category "IMG-20230101-WA0005.jpg" "D:\\WhatsApp Images"
      = "whatsapp" ∧
    detect_special_category "IMG-20230101-WA0005.jpg" "D:\\pics" = "" :=
  ⟨(C6_whatsapp_from_dir "D:\\WhatsApp Images").1.mpr (by decide),
   (C6_whatsapp_from_dir "D:\\pics").2.2 (by decide)⟩

/- ============================================================
   C7 — extension appending on metadata title candidates
   ============================================================ -/

/-- C7 counterexample: the sanitized `ImageDescription` candidate `a.jpg`
already ends with the file's extension `.jpg` (case-insensitively), yet the
Name Resolver appends the extension anyway, producing `a.jpg.jpg` — the
endswith guard exists only on the `XPFilename` branch. -/
theorem C7_counterexample :
    get_metadata_filename cDesc = "a.jpg.jpg" ∧
    pyEndsWith (pyLower "a.jpg") (pyLower ".jpg") = true := by
  decide

/-- C7 (amended): of the three metadata title candidates, only the Windows
`XPFilename` is subject to the case-insensitive extension check; an
`ImageDescription` candidate and a `DocumentName` candidate each have the
original extension appended unconditionally. -/
theorem C7_extension_appending (f : MediaFile) (e : ExifTags)
    (hf : f.exif = some e) :
    (∀ d, e.desc = some d → d ≠ "" → clean_filename_text d ≠ "" →
      get_metadata_filename f = clean_filename_text d ++ (pySplitExt f.name).2) ∧
    (∀ d, e.desc = none → e.doc = some d → d ≠ "" → clean_filename_text d ≠ "" →
      get_metadata_filename f = clean_filename_text d ++ (pySplitExt f.name).2) ∧
    (∀ x, e.desc = none → e.doc = none → e.xpfn = some x → x ≠ "" →
      clean_filename_text x ≠ "" →
      get_metadata_filename f =
        (if pyEndsWith (pyLower (clean_filename_text x))
            (pyLower (pySplitExt f.name).2) = true
         then clean_filename_text x
         else clean_filename_text x ++ (pySplitExt f.name).2)) := by
  refine ⟨?_, ?_, ?_⟩
  · intro d hd hne hcne
    simp only [get_metadata_filename, hf, candidateName, hd]
    rw [if_neg hne, if_neg hcne]
  · intro d hdesc hd hne hcne
    simp only [get_metadata_filename, hf, candidateName, hdesc, hd]
    rw [if_neg hne, if_neg hcne]
  · intro x hdesc hdoc hx hne hcne
    simp only [get_metadata_filename, hf, candidateName, xpfnName, hdesc, hdoc, hx]
    rw [if_neg hne, if_neg hcne]

/-- C7 witness: all three amended branches at concrete files — a description
title gets `.jpg` appended; a `DocumentName` already ending in `.jpg` still
gets it appended; an `XPFilename` already ending in `.JPG` is kept. -/
theorem C7_extension_appending_witness :
    get_metadata_filename cDesc2 = "Holiday.jpg" ∧
    get_metadata_filename cDoc = "b.jpg.jpg" ∧
    get_metadata_filename cXpfn = "Pic.JPG" := by
  refine ⟨?_, ?_, ?_⟩
  · have h := (C7_extension_appending cDesc2 _ rfl).1 "Holiday" rfl (by decide) (by decide)
    rw [h]; decide
  · have h := (C7_extension_appending cDoc _ rfl).2.1 "b.jpg" rfl rfl (by decide) (by decide)
    rw [h]; decide
  · have h := (C7_extension_appending cXpfn _ rfl).2.2 "Pic.JPG" rfl rfl rfl
      (by decide) (by decide)
    rw [h]; decide

/- ============================================================
   C8 — collision numbering over one run
   ============================================================ -/

/-- C8: three files of pairwise distinct content that all resolve to
`photo.jpg` and the same target directory, processed in sequence in one run,
receive the final paths `photo.jpg`, `photo_DUP.jpg`, `photo_DUP_1.jpg` in
that order. -/
theorem C8_three_name_clashes :
    (runSortMedia true [cPhoto "h1", cPhoto "h2", cPhoto "h3"]
        (initState [])).1.log.map Row.dest =
      ["D:\\Sorting_script\\output_v3\\sorted\\default\\2020\\01\\02\\photo.jpg",
       "D:\\Sorting_script\\output_v3\\sorted\\default\\2020\\01\\02\\photo_DUP.jpg",
       "D:\\Sorting_script\\output_v3\\sorted\\default\\2020\\01\\02\\photo_DUP_1.jpg"] := by
  decide

/- ============================================================
   C9 — filename dates are confined to years 2000-2099
   ============================================================ -/

lemma isDig_digVal_le {c : Char} (h : isDig c = true) : digVal c ≤ 9 := by
  simp only [isDig, Bool.and_eq_true, decide_eq_true_eq, Char.le_def] at h
  have h1 : 48 ≤ c.toNat := h.1
  have h2 : c.toNat ≤ 57 := h.2
  simp only [digVal]
  omega

lemma year_bound {a b : Char} (ha : isDig a = true) (hb : isDig b = true) :
    2000 ≤ 2000 + 10 * digVal a + digVal b ∧
      2000 + 10 * digVal a + digVal b ≤ 2099 := by
  have h1 := isDig_digVal_le ha
  have h2 := isDig_digVal_le hb
  omega

lemma mYMDsep_bound : ∀ l y mo d, mYMDsep l = some (y, mo, d) →
    2000 ≤ y ∧ y ≤ 2099 := by
  intro l y mo d h
  unfold mYMDsep at h
  split at h
  · split at h
    · injection h with h
      obtain ⟨rfl, -⟩ := Prod.mk.injEq .. ▸ h
      next hg =>
        simp only [Bool.and_eq_true] at hg
        exact year_bound hg.1.1.1.1.1.1.1 hg.1.1.1.1.1.1.2
    · exact absurd h (by simp)
  · exact absurd h (by simp)

lemma mDMYsep_bound : ∀ l y mo d, mDMYsep l = some (y, mo, d) →
    2000 ≤ y ∧ y ≤ 2099 := by
  intro l y mo d h
  unfold mDMYsep at h
  split at h
  · split at h
    · injection h with h
      obtain ⟨rfl, -⟩ := Prod.mk.injEq .. ▸ h
      next hg =>
        simp only [Bool.and_eq_true] at hg
        exact year_bound hg.1.2 hg.2
    · exact absurd h (by simp)
  · exact absurd h (by simp)

lemma mYMD8_bound : ∀ l y mo d, mYMD8 l = some (y, mo, d) →
    2000 ≤ y ∧ y ≤ 2099 := by
  intro l y mo d h
  unfold mYMD8 at h
  split at h
  · split at h
    · injection h with h
      obtain ⟨rfl, -⟩ := Prod.mk.injEq .. ▸ h
      next hg =>
        simp only [Bool.and_eq_true] at hg
        exact year_bound hg.1.1.1.1.1 hg.1.1.1.1.2
    · exact absurd h (by simp)
  · exact absurd h (by simp)

lemma mDMY8_bound : ∀ l y mo d, mDMY8 l = some (y, mo, d) →
    2000 ≤ y ∧ y ≤ 2099 := by
  intro l y mo d h
  unfold mDMY8 at h
  split at h
  · split at h
    · injection h with h
      obtain ⟨rfl, -⟩ := Prod.mk.injEq .. ▸ h
      next hg =>
        simp only [Bool.and_eq_true] at hg
        exact year_bound hg.1.2 hg.2
    · exact absurd h (by simp)
  · exact absurd h (by simp)

lemma mIMGVID_bound : ∀ l y mo d, mIMGVID l = some (y, mo, d) →
    2000 ≤ y ∧ y ≤ 2099 := by
  intro l y mo d h
  unfold mIMGVID at h
  split at h
  · split at h
    · split at h
      · split at h
        · exact mYMD8_bound _ y mo d h
        · exact mYMD8_bound _ y mo d h
      · exact absurd h (by simp)
    · exact absurd h (by simp)
  · exact absurd h (by simp)

lemma firstMatch_bound (m : List Char → Option (Nat × Nat × Nat))
    (hm : ∀ l y mo d, m l = some (y, mo, d) → 2000 ≤ y ∧ y ≤ 2099) :
    ∀ l y mo d, firstMatch m l = some (y, mo, d) → 2000 ≤ y ∧ y ≤ 2099 := by
  intro l
  induction l with
  | nil =>
    intro y mo d h
    exact hm [] y mo d (by simpa [firstMatch] using h)
  | cons c cs ih =>
    intro y mo d h
    unfold firstMatch at h
    split at h
    · next r heq =>
      injection h with h
      exact hm (c :: cs) y mo d (h ▸ heq)
    · exact ih y mo d h

lemma py_datetime_year {y m d : Nat} {dt : PyDate}
    (h : py_datetime y m d = some dt) : dt.year = y := by
  unfold py_datetime at h
  split at h
  · injection h with h
    exact h ▸ rfl
  · exact absurd h (by simp)

lemma tryPatterns_bound :
    ∀ (ps : List (List Char → Option (Nat × Nat × Nat))),
      (∀ m ∈ ps, ∀ l y mo d, m l = some (y, mo, d) → 2000 ≤ y ∧ y ≤ 2099) →
      ∀ l dt, tryPatterns ps l = some dt → 2000 ≤ dt.year ∧ dt.year ≤ 2099 := by
  intro ps
  induction ps with
  | nil => intro _ l dt h; simp [tryPatterns] at h
  | cons p ps ih =>
    intro hall l dt h
    unfold tryPatterns at h
    split at h
    · next y mo d heq =>
      split at h
      · next dt' hdt =>
        injection h with h
        subst h
        have hy := firstMatch_bound p (hall p (by simp)) l y mo d heq
        rw [py_datetime_year hdt]
        exact hy
      · exact ih (fun m hm => hall m (List.mem_cons_of_mem _ hm)) l dt h
    · exact ih (fun m hm => hall m (List.mem_cons_of_mem _ hm)) l dt h

/-- C9: every date the filename parser extracts has a year in 2000-2099 (each
pattern requires the year to begin with the digits `20`); the 1999 example
matches no pattern, and date resolution for it falls through to the
filesystem modification time. -/
theorem C9_year_window :
    (∀ (s : String) (dt : PyDate), parse_date_from_filename s = some dt →
        2000 ≤ dt.year ∧ dt.year ≤ 2099) ∧
    parse_date_from_filename "1999-05-06.jpg" = none ∧
    get_best_date c1999 = (⟨2010, 7, 8⟩, "default") := by
  refine ⟨?_, by decide, by decide⟩
  intro s dt h
  refine tryPatterns_bound FILENAME_DATE_PATTERNS ?_ _ dt h
  intro m hm
  simp only [FILENAME_DATE_PATTERNS, List.mem_cons, List.not_mem_nil, or_false] at hm
  rcases hm with rfl | rfl | rfl | rfl | rfl
  · exact mYMDsep_bound
  · exact mDMYsep_bound
  · exact mYMD8_bound
  · exact mDMY8_bound
  · exact mIMGVID_bound

/-- C9 witness: a parsed filename date, with its year inside the window. -/
theorem C9_year_window_witness :
    parse_date_from_filename "IMG_20230405_101112.jpg" = some ⟨2023, 4, 5⟩ ∧
    (2000 ≤ (2023 : Nat) ∧ (2023 : Nat) ≤ 2099) := by
  refine ⟨by decide, ?_⟩
  exact C9_year_window.1 "IMG_20230405_101112.jpg" ⟨2023, 4, 5⟩ (by decide)

/- ============================================================
   C10 — device normalization yields printable ASCII
   ============================================================ -/

lemma mem_collapseAux (p : Char → Bool) (r : Char) :
    ∀ (l : List Char) (b : Bool) (c : Char), c ∈ collapseAux p r b l → c = r ∨ c ∈ l := by
  intro l
  induction l with
  | nil => intro b c h; simp [collapseAux] at h
  | cons x xs ih =>
    intro b c h
    unfold collapseAux at h
    split at h
    · split at h
      · rcases ih true c h with h' | h'
        · exact Or.inl h'
        · exact Or.inr (List.mem_cons_of_mem _ h')
      · rcases List.mem_cons.mp h with rfl | h'
        · exact Or.inl rfl
        · rcases ih true c h' with h'' | h''
          · exact Or.inl h''
          · exact Or.inr (List.mem_cons_of_mem _ h'')
    · rcases List.mem_cons.mp h with rfl | h'
      · exact Or.inr (List.mem_cons_self _ _)
      · rcases ih false c h' with h'' | h''
        · exact Or.inl h''
        · exact Or.inr (List.mem_cons_of_mem _ h'')

lemma mem_stripSet (cs : List Char) (l : List Char) (c : Char)
    (h : c ∈ stripSet cs l) : c ∈ l := by
  unfold stripSet at h
  rw [List.mem_reverse] at h
  have h2 := (List.dropWhile_sublist _).subset h
  rw [List.mem_reverse] at h2
  exact (List.dropWhile_sublist _).subset h2

/-- C10: every character of a normalized device string is printable ASCII
(code 32-126) — the normalization filters to that range and only ever inserts
the underscore — and a make/model string made entirely of non-ASCII
characters normalizes to the `"default"` sentinel. -/
theorem C10_device_ascii :
    (∀ (s : String) (c : Char), c ∈ (clean_device_string s).data →
        32 ≤ c.toNat ∧ c.toNat ≤ 126) ∧
    (∀ s : String, (∀ c ∈ s.data, 128 ≤ c.toNat) →
        clean_device_string s = "default") := by
  have hdef : ∀ c ∈ ("default" : String).data, 32 ≤ c.toNat ∧ c.toNat ≤ 126 := by
    decide
  constructor
  · intro s c hc
    simp only [clean_device_string] at hc
    split at hc
    · exact hdef c hc
    · split at hc
      · exact hdef c hc
      · have h1 := mem_stripSet _ _ _ hc
        rcases mem_collapseAux _ _ _ _ _ h1 with rfl | h2
        · decide
        · rcases mem_collapseAux _ _ _ _ _ h2 with rfl | h3
          · decide
          · have h4 := List.mem_of_mem_filter h3
            have h5 := List.of_mem_filter h4
            simpa using h5
  · intro s hs
    simp only [clean_device_string]
    by_cases h0 : s = ""
    · rw [if_pos h0]
    · rw [if_neg h0]
      have hf : s.data.filter (fun c => 32 ≤ c.toNat && c.toNat ≤ 126) = [] := by
        rw [List.filter_eq_nil_iff]
        intro a ha
        have := hs a ha
        simp only [Bool.and_eq_true, decide_eq_true_eq, not_and, not_le]
        omega
      rw [hf]
      decide

/-- C10 witness: an ASCII character surviving normalization, and an all
non-ASCII make collapsing to `"default"`. -/
theorem C10_device_ascii_witness :
    (32 ≤ 'C'.toNat ∧ 'C'.toNat ≤ 126) ∧ clean_device_string "ΩΩ" = "default" :=
  ⟨C10_device_ascii.1 "Canon" 'C' (by decide),
   C10_device_ascii.2 "ΩΩ" (by decide)⟩
